import Mathlib

/-!
Verification development for the rustion repository.

The repository contains `mock.py`, a mock-data generator that seeds five
tables (`users`, `targets`, `secrets`, `target_secrets`, `casbin_rule`) of a
bastion-style access-control schema.  The generator is embedded shallowly
here: every use of Python's `random` module / `uuid.uuid4` / `time.time` is
a call to an abstract `Oracle`, threaded through an explicit seed counter
(one fresh seed per call, in the source's evaluation order), and
`Oracle.Valid` records the contracts of the library functions
(`randint a b ∈ [a,b]`, `choice` picks a valid index, `sample` picks `k`
distinct indices, `uuid4` yields fresh non-empty strings).

The authorization engine (`ResolveGroups`, `Matches`, `Authorize`) described
by the specification has no code under `src/`; it is modelled from the
specification's words, as marked on each of those definitions.
-/

namespace Rustion

/-- Row of the `users` table as built by `generate()` in mock.py. -/
structure User where
  id : String
  username : String
  email : String
  password_hash : String
  authorized_keys : String
  force_init_pass : Nat
  is_active : Nat
  updated_by : String
  updated_at : Nat
  deriving Repr, DecidableEq

/-- Row of the `targets` table as built by `generate()` in mock.py. -/
structure Target where
  id : String
  name : String
  hostname : String
  port : Nat
  server_public_key : String
  description : String
  is_active : Nat
  updated_by : String
  updated_at : Nat
  deriving Repr, DecidableEq

/-- Row of the `secrets` table as built by `generate()` in mock.py.
`password`, `private_key`, `public_key` are nullable columns. -/
structure Secret where
  id : String
  name : String
  user : String
  password : Option String
  private_key : Option String
  public_key : Option String
  is_active : Nat
  updated_by : String
  updated_at : Nat
  deriving Repr, DecidableEq

/-- Row of the `target_secrets` table as built by `generate()` in mock.py. -/
structure TargetSecret where
  id : String
  target_id : String
  secret_id : String
  is_active : Nat
  updated_by : String
  updated_at : Nat
  deriving Repr, DecidableEq

/-- Row of the `casbin_rule` table as built by `generate()` in mock.py. -/
structure CasbinRule where
  id : String
  ptype : String
  v0 : String
  v1 : String
  v2 : String
  v3 : String
  v4 : String
  v5 : String
  updated_by : String
  updated_at : Nat
  deriving Repr, DecidableEq

/-- Abstract source of randomness, uuids and clock readings.  Each call the
Python script makes to `uuid.uuid4()`, `random.randint`, `random.choice`,
`random.sample` or `time.time()` consumes one fresh seed. -/
structure Oracle where
  uuid : Nat → String
  randint : Nat → Nat → Nat → Nat
  choiceIdx : Nat → Nat → Nat
  sampleIdx : Nat → Nat → Nat → List Nat
  time : Nat → Nat

/-- Contracts of the Python library functions used by `generate()`:
`random.randint(lo, hi)` is inclusive on both ends, `random.choice(l)`
returns an element of `l` (modelled as a valid index), `random.sample(l, k)`
returns `k` elements at distinct valid positions, and `uuid.uuid4()` yields
pairwise distinct non-empty strings. -/
structure Oracle.Valid (o : Oracle) : Prop where
  randint_ge : ∀ s lo hi, lo ≤ hi → lo ≤ o.randint s lo hi
  randint_le : ∀ s lo hi, lo ≤ hi → o.randint s lo hi ≤ hi
  choice_lt : ∀ s n, 0 < n → o.choiceIdx s n < n
  sample_len : ∀ s n k, k ≤ n → (o.sampleIdx s n k).length = k
  sample_nodup : ∀ s n k, k ≤ n → (o.sampleIdx s n k).Nodup
  sample_lt : ∀ s n k, k ≤ n → ∀ i ∈ o.sampleIdx s n k, i < n
  uuid_inj : Function.Injective o.uuid
  uuid_ne : ∀ s, o.uuid s ≠ ""

/-- `random.choice(l)`: pick the element at the oracle-chosen index
(`d` is irrelevant for a valid oracle and non-empty `l`). -/
def choose (o : Oracle) (s : Nat) (l : List α) (d : α) : α :=
  l.getD (o.choiceIdx s l.length) d

/-- Thread the seed counter through a sequence of record builders, in list
order: the Python `for` loops of `generate()`. -/
def mapSeq (f : β → Nat → α × Nat) : List β → Nat → List α × Nat
  | [], s => ([], s)
  | b :: bs, s =>
    ((f b s).1 :: (mapSeq f bs (f b s).2).1, (mapSeq f bs (f b s).2).2)

/-- Placeholder user for `List.getD`; never selected under a valid oracle. -/
def dfltUser : User :=
  { id := "", username := "", email := "", password_hash := "",
    authorized_keys := "", force_init_pass := 0, is_active := 0,
    updated_by := "", updated_at := 0 }

/-- Placeholder secret for `List.getD`; never selected under a valid oracle. -/
def dfltSecret : Secret :=
  { id := "", name := "", user := "", password := none, private_key := none,
    public_key := none, is_active := 0, updated_by := "", updated_at := 0 }

/-- Placeholder binding for `List.getD`; never selected under a valid oracle. -/
def dfltTS : TargetSecret :=
  { id := "", target_id := "", secret_id := "", is_active := 0,
    updated_by := "", updated_at := 0 }

/-- One `users` row (mock.py, section 3.1): seed `s` is `uuid4()`, `s+1` is
`random.choice([0, 1])`, `s+2` is `now_ts()`, `s+3` is `randint(0, 1000)`. -/
def mkUser (o : Oracle) (admin_id : String) (i : Nat) (s : Nat) : User × Nat :=
  ({ id := o.uuid s,
     username := "user" ++ toString i,
     email := "user" ++ toString i ++ "@example.com",
     password_hash := "hash" ++ toString i,
     authorized_keys := "[\"ssh-rsa key" ++ toString i ++ "\"]",
     force_init_pass := choose o (s + 1) [0, 1] 0,
     is_active := 1,
     updated_by := admin_id,
     updated_at := o.time (s + 2) * 1000 + o.randint (s + 3) 0 1000 }, s + 4)

/-- One `targets` row (mock.py, section 3.2): seeds `s..s+5` are `uuid4()`,
`randint(1024, 65535)`, `choice([0,1,1,1])`, `choice(users)`, `now_ts()`,
`randint(0, 1000)`. -/
def mkTarget (o : Oracle) (users : List User) (i : Nat) (s : Nat) : Target × Nat :=
  ({ id := o.uuid s,
     name := "target-" ++ toString i,
     hostname := "host-" ++ toString i ++ ".example.com",
     port := o.randint (s + 1) 1024 65535,
     server_public_key := "pubkey-" ++ toString i,
     description := "Target number " ++ toString i,
     is_active := choose o (s + 2) [0, 1, 1, 1] 0,
     updated_by := (choose o (s + 3) users dfltUser).id,
     updated_at := o.time (s + 4) * 1000 + o.randint (s + 5) 0 1000 }, s + 6)

/-- One `secrets` row (mock.py, section 3.3): seeds `s..s+5` are `uuid4()`,
`choice(["root","alice","bob"])`, `choice([0,1,1,1])`, `choice(users)`,
`now_ts()`, `randint(0, 1000)`. -/
def mkSecret (o : Oracle) (users : List User) (i : Nat) (s : Nat) : Secret × Nat :=
  ({ id := o.uuid s,
     name := "secret-" ++ toString i,
     user := choose o (s + 1) ["root", "alice", "bob"] "",
     password := some ("pw" ++ toString i),
     private_key := none,
     public_key := none,
     is_active := choose o (s + 2) [0, 1, 1, 1] 0,
     updated_by := (choose o (s + 3) users dfltUser).id,
     updated_at := o.time (s + 4) * 1000 + o.randint (s + 5) 0 1000 }, s + 6)

/-- One `target_secrets` row (mock.py, section 3.4, inner loop): seeds
`s..s+4` are `uuid4()`, `choice([0,1,1,1])`, `choice(users)`, `now_ts()`,
`randint(0, 1000)`. -/
def mkTS (o : Oracle) (users : List User) (t : Target) (sec : Secret) (s : Nat) :
    TargetSecret × Nat :=
  ({ id := o.uuid s,
     target_id := t.id,
     secret_id := sec.id,
     is_active := choose o (s + 1) [0, 1, 1, 1] 0,
     updated_by := (choose o (s + 2) users dfltUser).id,
     updated_at := o.time (s + 3) * 1000 + o.randint (s + 4) 0 1000 }, s + 5)

/-- The three `target_secrets` rows of one target (mock.py, section 3.4):
seed `s` is `random.sample(secrets, 3)`, then the three rows. -/
def mkTSblock (o : Oracle) (users : List User) (secrets : List Secret)
    (t : Target) (s : Nat) : List TargetSecret × Nat :=
  let idxs := o.sampleIdx s secrets.length 3
  let chosen := idxs.map fun j => secrets.getD j dfltSecret
  mapSeq (mkTS o users t) chosen (s + 1)

/-- One `g2` casbin rule (mock.py, first casbin loop): seeds `s..s+3` are
`uuid4()`, `choice(users)`, `now_ts()`, `randint(0, 1000)`. -/
def mkG2 (o : Oracle) (users : List User) (g : String) (t : TargetSecret)
    (s : Nat) : CasbinRule × Nat :=
  ({ id := o.uuid s,
     ptype := "g2",
     v0 := t.id,
     v1 := g,
     v2 := "", v3 := "", v4 := "", v5 := "",
     updated_by := (choose o (s + 1) users dfltUser).id,
     updated_at := o.time (s + 2) * 1000 + o.randint (s + 3) 0 1000 }, s + 4)

/-- The 100 `g2` rules of one group name (mock.py, first casbin loop):
seed `s` is `random.sample(target_secrets, 100)`, then the rows. -/
def g2Block (o : Oracle) (users : List User) (tss : List TargetSecret)
    (g : String) (s : Nat) : List CasbinRule × Nat :=
  let idxs := o.sampleIdx s tss.length 100
  let chosen := idxs.map fun j => tss.getD j dfltTS
  mapSeq (mkG2 o users g) chosen (s + 1)

/-- One `g1` casbin rule (mock.py, second casbin loop): seeds `s..s+3` are
`uuid4()`, `choice(users)`, `now_ts()`, `randint(0, 1000)`. -/
def mkG1 (o : Oracle) (users : List User) (u : User) (s : Nat) : CasbinRule × Nat :=
  ({ id := o.uuid s,
     ptype := "g1",
     v0 := u.id,
     v1 := "login_group",
     v2 := "", v3 := "", v4 := "", v5 := "",
     updated_by := (choose o (s + 1) users dfltUser).id,
     updated_at := o.time (s + 2) * 1000 + o.randint (s + 3) 0 1000 }, s + 4)

/-- One `p` casbin rule (mock.py, third casbin loop): seeds `s..s+5` are
`uuid4()`, `choice(["apple","banana","peach"])`, `choice(["exec","shell"])`,
`choice(users)`, `now_ts()`, `randint(0, 1000)`. -/
def mkP (o : Oracle) (users : List User) (u : User) (s : Nat) : CasbinRule × Nat :=
  ({ id := o.uuid s,
     ptype := "p",
     v0 := u.id,
     v1 := choose o (s + 1) ["apple", "banana", "peach"] "",
     v2 := choose o (s + 2) ["exec", "shell"] "",
     v3 := "", v4 := "", v5 := "",
     updated_by := (choose o (s + 3) users dfltUser).id,
     updated_at := o.time (s + 4) * 1000 + o.randint (s + 5) 0 1000 }, s + 6)

/-- The rows inserted by one run of `generate()` into each table, in
insertion order. -/
structure GenOut where
  users : List User
  targets : List Target
  secrets : List Secret
  target_secrets : List TargetSecret
  casbin_rule : List CasbinRule

/-- Section 3.1 of `generate()`: the `users` rows (i = 1..5, matching
Python's `range(1, 6)`), starting from seed 0, with the final seed. -/
def genUsers (o : Oracle) (a : String) : List User × Nat :=
  mapSeq (mkUser o a) (List.range' 1 5) 0

/-- Section 3.2 of `generate()`: the `targets` rows (i = 1..200). -/
def genTargets (o : Oracle) (a : String) : List Target × Nat :=
  mapSeq (mkTarget o (genUsers o a).1) (List.range' 1 200) (genUsers o a).2

/-- Section 3.3 of `generate()`: the `secrets` rows (i = 1..20). -/
def genSecrets (o : Oracle) (a : String) : List Secret × Nat :=
  mapSeq (mkSecret o (genUsers o a).1) (List.range' 1 20) (genTargets o a).2

/-- Section 3.4 of `generate()`: three `target_secrets` rows per target. -/
def genTSBlocks (o : Oracle) (a : String) : List (List TargetSecret) × Nat :=
  mapSeq (mkTSblock o (genUsers o a).1 (genSecrets o a).1) (genTargets o a).1
    (genSecrets o a).2

/-- The full `target_secrets` table of one run, in insertion order. -/
def genTSS (o : Oracle) (a : String) : List TargetSecret :=
  (genTSBlocks o a).1.flatten

/-- First casbin loop, group "apple": 100 `g2` rules. -/
def genG2a (o : Oracle) (a : String) : List CasbinRule × Nat :=
  g2Block o (genUsers o a).1 (genTSS o a) "apple" (genTSBlocks o a).2

/-- First casbin loop, group "banana": 100 `g2` rules. -/
def genG2b (o : Oracle) (a : String) : List CasbinRule × Nat :=
  g2Block o (genUsers o a).1 (genTSS o a) "banana" (genG2a o a).2

/-- First casbin loop, group "peach": 100 `g2` rules. -/
def genG2c (o : Oracle) (a : String) : List CasbinRule × Nat :=
  g2Block o (genUsers o a).1 (genTSS o a) "peach" (genG2b o a).2

/-- Second casbin loop: one `g1` rule per generated user. -/
def genG1 (o : Oracle) (a : String) : List CasbinRule × Nat :=
  mapSeq (mkG1 o (genUsers o a).1) (genUsers o a).1 (genG2c o a).2

/-- Third casbin loop: one `p` rule per generated user. -/
def genP (o : Oracle) (a : String) : List CasbinRule × Nat :=
  mapSeq (mkP o (genUsers o a).1) (genUsers o a).1 (genG1 o a).2

/-- The body of `generate()` after the admin-id lookup succeeded: build
users (i = 1..5), targets (i = 1..200), secrets (i = 1..20), three bindings
per target, then the `g2`, `g1` and `p` casbin rules, threading one seed per
library call in source order. -/
def generateFrom (o : Oracle) (a : String) : GenOut :=
  { users := (genUsers o a).1, targets := (genTargets o a).1,
    secrets := (genSecrets o a).1, target_secrets := genTSS o a,
    casbin_rule := (genG2a o a).1 ++ (genG2b o a).1 ++ (genG2c o a).1 ++
      (genG1 o a).1 ++ (genP o a).1 }

/-- The initial `SELECT id FROM users WHERE username = 'admin'` of
`generate()`: the id of the first row whose username is `admin`, if any. -/
def findAdmin (existing : List User) : Option String :=
  (existing.find? fun u => u.username == "admin").map (·.id)

/-- `generate()`: look up the admin id; `fetchone()[0]` raises before any
insert when no admin row exists (modelled as `none`), otherwise insert the
generated rows (modelled as `some` of them). -/
def generate (existing : List User) (o : Oracle) : Option GenOut :=
  (findAdmin existing).map fun admin_id => generateFrom o admin_id

/-- Modelled from the spec: no engine code exists under `src/`; section 4.1
describes one expansion step of the Group Resolver — "scans grouping rules
of the given type where v0 == subjectID, collects v1 values".  Here for a
whole frontier of identifiers at once. -/
def directGroups (rules : List CasbinRule) (pt : String)
    (frontier : List String) : List String :=
  (rules.filter fun r => r.ptype == pt && frontier.contains r.v0).map (·.v1)

/-- Modelled from the spec: the groups discovered in one round that were
not already visited (section 4.1 tracks visited group names). -/
def newGroups (rules : List CasbinRule) (pt : String)
    (frontier visited : List String) : List String :=
  ((directGroups rules pt frontier).filter fun g => !(visited.contains g)).dedup

/-- Modelled from the spec: the fixed-point loop of section 4.1, "expansion
continues until a fixed point — this guards against cycles by tracking
visited group names and terminating when no new group is discovered".
`fuel` bounds the number of rounds; each round either discovers a new group
name or stops, so `rules.length` rounds always suffice (see
`resolveAux_stable`). -/
def resolveAux (rules : List CasbinRule) (pt : String) :
    Nat → List String → List String → List String
  | 0, _, visited => visited
  | fuel + 1, frontier, visited =>
    if newGroups rules pt frontier visited = [] then visited
    else resolveAux rules pt fuel (newGroups rules pt frontier visited)
      (visited ++ newGroups rules pt frontier visited)

/-- Modelled from the spec: `ResolveGroups(subjectID, ruleType)` of section
4.1 — the set of group names transitively reachable from `subjectID`
through grouping rules of type `pt`. -/
def ResolveGroups (rules : List CasbinRule) (pt : String) (subjectID : String) :
    List String :=
  resolveAux rules pt rules.length [subjectID] []

/-- Modelled from the spec: the Policy Matcher of section 4.2 — "a rule
matches if (v0 == subjectID OR v0 ∈ subjectGroups) AND v1 ∈ resourceGroups
AND v2 == action", first match short-circuits to true. -/
def Matches (rules : List CasbinRule) (subjectID : String)
    (subjectGroups resourceGroups : List String) (action : String) : Bool :=
  rules.any fun r =>
    r.ptype == "p" && (r.v0 == subjectID || subjectGroups.contains r.v0) &&
      resourceGroups.contains r.v1 && r.v2 == action

/-- Decision returned by `Authorize` (spec sections 4.3 and 6). -/
inductive AuthDecision where
  | allow : AuthDecision
  | deny : String → AuthDecision
  deriving Repr, DecidableEq

/-- Modelled from the spec: the Identity Store and Rule Store state the
engine reads (section 6); rows use the schema of section 3 / mock.py. -/
structure Store where
  users : List User
  targets : List Target
  secrets : List Secret
  target_secrets : List TargetSecret
  rules : List CasbinRule

/-- Modelled from the spec: `GetTargetSecret(bindingID)` of section 6. -/
def Store.getTargetSecret (st : Store) (bindingID : String) : Option TargetSecret :=
  st.target_secrets.find? fun b => b.id == bindingID

/-- Modelled from the spec: `GetTarget(targetID)` of section 6. -/
def Store.getTarget (st : Store) (targetID : String) : Option Target :=
  st.targets.find? fun t => t.id == targetID

/-- Modelled from the spec: `GetSecret(secretID)` of section 6. -/
def Store.getSecret (st : Store) (secretID : String) : Option Secret :=
  st.secrets.find? fun sec => sec.id == secretID

/-- Modelled from the spec: `Authorize(userID, bindingID, action)` of
section 4.3 — resolve the binding (missing records deny with
"resource-not-found", section 7); verify the binding, its target and its
secret are all active, any inactive component yielding
`Deny("inactive-resource")` with group/policy evaluation skipped; otherwise
resolve subject groups (`g1`) and resource groups (`g2`) and consult the
Policy Matcher.  SQLite stores booleans as integers: a row is active iff its
`is_active` column is non-zero. -/
def Authorize (st : Store) (userID bindingID action : String) : AuthDecision :=
  match st.getTargetSecret bindingID with
  | none => .deny "resource-not-found"
  | some b =>
    match st.getTarget b.target_id, st.getSecret b.secret_id with
    | some t, some sec =>
      if b.is_active ≠ 0 ∧ t.is_active ≠ 0 ∧ sec.is_active ≠ 0 then
        let subjectGroups := ResolveGroups st.rules "g1" userID
        let resourceGroups := ResolveGroups st.rules "g2" bindingID
        if Matches st.rules userID subjectGroups resourceGroups action then
          .allow
        else
          .deny "no-matching-policy"
      else
        .deny "inactive-resource"
    | _, _ => .deny "resource-not-found"

/-! ### Generic facts about seed threading -/

theorem mapSeq_length (f : β → Nat → α × Nat) :
    ∀ (l : List β) (s : Nat), ((mapSeq f l s).1).length = l.length := by
  intro l
  induction l with
  | nil => intro s; rfl
  | cons b bs ih => intro s; simp [mapSeq, ih]

theorem mapSeq_mem (f : β → Nat → α × Nat) :
    ∀ {l : List β} {s : Nat} {a : α}, a ∈ (mapSeq f l s).1 →
      ∃ b ∈ l, ∃ s', a = (f b s').1 := by
  intro l
  induction l with
  | nil => intro s a h; simp [mapSeq] at h
  | cons b bs ih =>
    intro s a h
    rcases List.mem_cons.mp h with h1 | h2
    · exact ⟨b, List.mem_cons_self b bs, s, h1⟩
    · obtain ⟨b', hb', s', hs'⟩ := ih h2
      exact ⟨b', List.mem_cons_of_mem _ hb', s', hs'⟩

theorem mapSeq_map_key (f : β → Nat → α × Nat) (key : α → γ) (kf : β → γ)
    (hk : ∀ b s, key (f b s).1 = kf b) :
    ∀ (l : List β) (s : Nat), ((mapSeq f l s).1).map key = l.map kf := by
  intro l
  induction l with
  | nil => intro s; rfl
  | cons b bs ih => intro s; simp [mapSeq, hk, ih]

theorem mapSeq_snd (f : β → Nat → α × Nat) (c : Nat)
    (hc : ∀ b s, (f b s).2 = s + c) :
    ∀ (l : List β) (s : Nat), (mapSeq f l s).2 = s + c * l.length := by
  intro l
  induction l with
  | nil => intro s; simp [mapSeq]
  | cons b bs ih =>
    intro s
    simp only [mapSeq, ih, hc, List.length_cons]
    ring

/-- Rows built from strictly increasing uuid seeds have pairwise distinct
ids: each builder call advances the seed by `c` and reads its id from the
seed at the start of its window. -/
theorem mapSeq_ids (o : Oracle) (f : β → Nat → α × Nat) (idf : α → String)
    (c : Nat) (hc : ∀ b s, (f b s).2 = s + c)
    (hid : ∀ b s, idf (f b s).1 = o.uuid s) (hcpos : 0 < c)
    (hinj : Function.Injective o.uuid) :
    ∀ (l : List β) (s : Nat), (((mapSeq f l s).1).map idf).Nodup ∧
      ∀ a ∈ (mapSeq f l s).1,
        ∃ k, s ≤ k ∧ k < s + c * l.length ∧ idf a = o.uuid k := by
  intro l
  induction l with
  | nil =>
    intro s
    refine ⟨by simp [mapSeq], ?_⟩
    intro a ha
    simp [mapSeq] at ha
  | cons b bs ih =>
    intro s
    obtain ⟨ihnd, ihmem⟩ := ih (s + c)
    have hsplit : c * (b :: bs).length = c * bs.length + c := by
      simp [List.length_cons]; ring
    constructor
    · simp only [mapSeq, hc, List.map_cons, List.nodup_cons]
      refine ⟨?_, ihnd⟩
      intro hmem
      obtain ⟨a, ha, hida⟩ := List.mem_map.mp hmem
      obtain ⟨k, hk1, _, hk3⟩ := ihmem a ha
      have heq : o.uuid k = o.uuid s := by rw [← hk3, hida, hid]
      have := hinj heq
      omega
    · intro a ha
      simp only [mapSeq, hc, List.mem_cons] at ha
      rcases ha with ha | ha
      · exact ⟨s, le_refl s, by omega, by rw [ha, hid]⟩
      · obtain ⟨k, hk1, hk2, hk3⟩ := ihmem a ha
        exact ⟨k, by omega, by omega, hk3⟩

/-- Same, for builders that return a whole block of rows per element: all
ids inside a block come from that block's seed window, so the flattened
list of ids is duplicate-free. -/
theorem mapSeq_flatten_ids (o : Oracle) (f : β → Nat → List α × Nat)
    (idf : α → String) (c : Nat) (hc : ∀ b s, (f b s).2 = s + c)
    (hblock : ∀ b s, (((f b s).1).map idf).Nodup ∧
      ∀ a ∈ (f b s).1, ∃ k, s ≤ k ∧ k < s + c ∧ idf a = o.uuid k)
    (hinj : Function.Injective o.uuid) :
    ∀ (l : List β) (s : Nat), ((((mapSeq f l s).1).flatten).map idf).Nodup ∧
      ∀ a ∈ ((mapSeq f l s).1).flatten, ∃ k, s ≤ k ∧ idf a = o.uuid k := by
  intro l
  induction l with
  | nil =>
    intro s
    refine ⟨by simp [mapSeq], ?_⟩
    intro a ha
    simp [mapSeq] at ha
  | cons b bs ih =>
    intro s
    obtain ⟨ihnd, ihmem⟩ := ih (s + c)
    obtain ⟨bnd, bmem⟩ := hblock b s
    constructor
    · simp only [mapSeq, hc, List.flatten_cons, List.map_append]
      refine List.Nodup.append bnd ihnd ?_
      intro x hx hx'
      obtain ⟨a, ha, hida⟩ := List.mem_map.mp hx
      obtain ⟨a', ha', hida'⟩ := List.mem_map.mp hx'
      obtain ⟨k, hk1, hk2, hk3⟩ := bmem a ha
      obtain ⟨k', hk'1, hk'3⟩ := ihmem a' ha'
      have : k = k' := hinj (by rw [← hk3, hida, ← hida', hk'3])
      omega
    · intro a ha
      simp only [mapSeq, hc, List.flatten_cons, List.mem_append] at ha
      rcases ha with ha | ha
      · obtain ⟨k, hk1, _, hk3⟩ := bmem a ha
        exact ⟨k, hk1, hk3⟩
      · obtain ⟨k, hk1, hk3⟩ := ihmem a ha
        exact ⟨k, by omega, hk3⟩

/-- `random.choice` returns an element of a non-empty list. -/
theorem choose_mem (o : Oracle) (hv : o.Valid) (s : Nat) (l : List α) (d : α)
    (hl : l ≠ []) : choose o s l d ∈ l := by
  have hlen : 0 < l.length := List.length_pos.mpr hl
  have hidx := hv.choice_lt s l.length hlen
  rw [choose, List.getD_eq_getElem l d hidx]
  exact List.getElem_mem hidx

/-- Picking rows of a duplicate-free table at duplicate-free valid indices
yields rows with duplicate-free ids. -/
theorem sampled_ids_nodup (idxs : List Nat) (l : List α) (idf : α → String)
    (d : α) (hnd : (l.map idf).Nodup) (hidx : idxs.Nodup)
    (hlt : ∀ i ∈ idxs, i < l.length) :
    (idxs.map fun i => idf (l.getD i d)).Nodup := by
  refine hidx.map_on ?_
  intro i hi j hj hij
  have hi' : i < l.length := hlt i hi
  have hj' : j < l.length := hlt j hj
  have hi2 : i < (l.map idf).length := by simpa using hi'
  have hj2 : j < (l.map idf).length := by simpa using hj'
  have hg : (l.map idf).get ⟨i, hi2⟩ = (l.map idf).get ⟨j, hj2⟩ := by
    simp only [List.get_eq_getElem, List.getElem_map]
    rw [← List.getD_eq_getElem l d hi', ← List.getD_eq_getElem l d hj']
    exact hij
  simpa using (hnd.get_inj_iff).mp hg

theorem mapSeq_flatten_length (f : β → Nat → List α × Nat) (m : Nat)
    (hm : ∀ b s, ((f b s).1).length = m) :
    ∀ (l : List β) (s : Nat), (((mapSeq f l s).1).flatten).length = m * l.length := by
  intro l
  induction l with
  | nil => intro s; simp [mapSeq]
  | cons b bs ih =>
    intro s
    simp only [mapSeq, List.flatten_cons, List.length_append, hm, ih,
      List.length_cons]
    ring

/-! ### Shapes of the generated tables -/

theorem genUsers_length (o : Oracle) (a : String) :
    ((genUsers o a).1).length = 5 := by
  simp [genUsers, mapSeq_length]

theorem genTargets_length (o : Oracle) (a : String) :
    ((genTargets o a).1).length = 200 := by
  simp [genTargets, mapSeq_length]

theorem genSecrets_length (o : Oracle) (a : String) :
    ((genSecrets o a).1).length = 20 := by
  simp [genSecrets, mapSeq_length]

theorem mkTSblock_length (o : Oracle) (hv : o.Valid) (users : List User)
    (secrets : List Secret) (h3 : 3 ≤ secrets.length) (t : Target) (s : Nat) :
    ((mkTSblock o users secrets t s).1).length = 3 := by
  simp only [mkTSblock, mapSeq_length, List.length_map]
  exact hv.sample_len s secrets.length 3 h3

theorem genTSS_length (o : Oracle) (hv : o.Valid) (a : String) :
    (genTSS o a).length = 600 := by
  have h3 : 3 ≤ ((genSecrets o a).1).length := by
    rw [genSecrets_length]; omega
  have := mapSeq_flatten_length (mkTSblock o (genUsers o a).1 (genSecrets o a).1)
    3 (fun t s => mkTSblock_length o hv _ _ h3 t s) ((genTargets o a).1)
    ((genSecrets o a).2)
  simpa [genTSS, genTSBlocks, genTargets_length] using this

theorem mkTSblock_snd (o : Oracle) (hv : o.Valid) (users : List User)
    (secrets : List Secret) (h3 : 3 ≤ secrets.length) (t : Target) (s : Nat) :
    (mkTSblock o users secrets t s).2 = s + 16 := by
  have hlen : (((o.sampleIdx s secrets.length 3).map
      fun j => secrets.getD j dfltSecret)).length = 3 := by
    simp only [List.length_map]
    exact hv.sample_len s secrets.length 3 h3
  simp only [mkTSblock, mapSeq_snd (mkTS o users t) 5 (fun _ _ => rfl), hlen]

/-- All generated user ids are fresh uuids, hence pairwise distinct. -/
theorem genUsers_ids_nodup (o : Oracle) (hv : o.Valid) (a : String) :
    (((genUsers o a).1).map (·.id)).Nodup :=
  (mapSeq_ids o (mkUser o a) User.id 4 (fun _ _ => rfl) (fun _ _ => rfl)
    (by omega) hv.uuid_inj (List.range' 1 5) 0).1

/-- All generated binding ids are fresh uuids, hence pairwise distinct. -/
theorem genTSS_ids_nodup (o : Oracle) (hv : o.Valid) (a : String) :
    ((genTSS o a).map (·.id)).Nodup := by
  have h3 : 3 ≤ ((genSecrets o a).1).length := by
    rw [genSecrets_length]; omega
  refine (mapSeq_flatten_ids o
    (mkTSblock o (genUsers o a).1 (genSecrets o a).1) TargetSecret.id 16
    (fun t s => mkTSblock_snd o hv _ _ h3 t s) ?_ hv.uuid_inj
    ((genTargets o a).1) ((genSecrets o a).2)).1
  intro t s
  have hids := mapSeq_ids o (mkTS o (genUsers o a).1 t) TargetSecret.id 5
    (fun _ _ => rfl) (fun _ _ => rfl) (by omega) hv.uuid_inj
    ((o.sampleIdx s ((genSecrets o a).1).length 3).map
      fun j => ((genSecrets o a).1).getD j dfltSecret) (s + 1)
  have hlen : (((o.sampleIdx s ((genSecrets o a).1).length 3).map
      fun j => ((genSecrets o a).1).getD j dfltSecret)).length = 3 := by
    simp only [List.length_map]
    exact hv.sample_len s ((genSecrets o a).1).length 3 h3
  rw [hlen] at hids
  refine ⟨hids.1, ?_⟩
  intro x hx
  obtain ⟨k, hk1, hk2, hk3⟩ := hids.2 x hx
  exact ⟨k, by omega, by omega, hk3⟩

/-- Placeholder rule for `List.getD`. -/
def dfltRule : CasbinRule :=
  { id := "", ptype := "", v0 := "", v1 := "", v2 := "", v3 := "", v4 := "",
    v5 := "", updated_by := "", updated_at := 0 }

/-- Placeholder target for `List.getD`. -/
def dfltTarget : Target :=
  { id := "", name := "", hostname := "", port := 0, server_public_key := "",
    description := "", is_active := 0, updated_by := "", updated_at := 0 }

theorem getD_zero_mem (l : List α) (d : α) (h : 0 < l.length) :
    l.getD 0 d ∈ l := by
  rw [List.getD_eq_getElem l d h]
  exact List.getElem_mem h

/-- Every row of a `g2` block is `mkG2` applied to a row of the sampled
table. -/
theorem g2Block_mem (o : Oracle) (hv : o.Valid) (users : List User)
    (tss : List TargetSecret) (g : String) (s : Nat)
    (h100 : 100 ≤ tss.length) {r : CasbinRule}
    (hr : r ∈ (g2Block o users tss g s).1) :
    ∃ t ∈ tss, ∃ s', r = (mkG2 o users g t s').1 := by
  simp only [g2Block] at hr
  obtain ⟨t, ht, s', hs'⟩ := mapSeq_mem _ hr
  refine ⟨t, ?_, s', hs'⟩
  obtain ⟨i, hi, hgd⟩ := List.mem_map.mp ht
  have hilt : i < tss.length := hv.sample_lt s tss.length 100 h100 i hi
  rw [← hgd, List.getD_eq_getElem tss dfltTS hilt]
  exact List.getElem_mem hilt

/-- Membership in the generated `casbin_rule` table, block by block. -/
theorem mem_casbin (o : Oracle) (a : String) (r : CasbinRule) :
    r ∈ (generateFrom o a).casbin_rule ↔
      r ∈ (genG2a o a).1 ∨ r ∈ (genG2b o a).1 ∨ r ∈ (genG2c o a).1 ∨
        r ∈ (genG1 o a).1 ∨ r ∈ (genP o a).1 := by
  simp [generateFrom, List.mem_append, or_assoc]

theorem genTSS_length_100 (o : Oracle) (hv : o.Valid) (a : String) :
    100 ≤ (genTSS o a).length := by
  rw [genTSS_length o hv a]
  omega

theorem genP_length (o : Oracle) (a : String) : ((genP o a).1).length = 5 := by
  simp [genP, mapSeq_length, genUsers_length]

theorem casbin_length_pos (o : Oracle) (a : String) :
    0 < ((generateFrom o a).casbin_rule).length := by
  have h5 := genP_length o a
  simp only [generateFrom, List.length_append]
  omega

/-! ### A concrete valid oracle -/

/-- A concrete oracle: `randint` returns the lower bound, `choice` picks the
first element, `sample` picks the first `k` positions, uuids are distinct
non-empty strings. -/
def demoOracle : Oracle :=
  { uuid := fun n => String.replicate (n + 1) 'u',
    randint := fun _ lo _ => lo,
    choiceIdx := fun _ _ => 0,
    sampleIdx := fun _ _ k => List.range k,
    time := fun _ => 0 }

theorem demoOracle_valid : demoOracle.Valid := by
  constructor
  · intro s lo hi _
    exact le_refl lo
  · intro s lo hi h
    exact h
  · intro s n h
    exact h
  · intro s n k _
    exact List.length_range k
  · intro s n k _
    exact List.nodup_range k
  · intro s n k hk i hi
    have := List.mem_range.mp hi
    omega
  · intro x y h
    have h2 := congrArg String.length h
    simp only [demoOracle, String.length_replicate] at h2
    omega
  · intro s h
    have h2 := congrArg String.length h
    simp only [demoOracle, String.length_replicate] at h2
    simp at h2

/-! ### Claims about the generator -/

/-- C3: every record inserted into `casbin_rule` by a run of `generate()`
has its `ptype` field equal to one of exactly `"g1"`, `"g2"`, `"p"`; no
other `ptype` value is ever written. -/
theorem c3_ptype_values (o : Oracle) (a : String) :
    ∀ r ∈ (generateFrom o a).casbin_rule,
      r.ptype = "g1" ∨ r.ptype = "g2" ∨ r.ptype = "p" := by
  intro r hr
  rcases (mem_casbin o a r).mp hr with h | h | h | h | h
  · simp only [genG2a, g2Block] at h
    obtain ⟨t, _, s', hs'⟩ := mapSeq_mem _ h
    rw [hs']
    right; left; rfl
  · simp only [genG2b, g2Block] at h
    obtain ⟨t, _, s', hs'⟩ := mapSeq_mem _ h
    rw [hs']
    right; left; rfl
  · simp only [genG2c, g2Block] at h
    obtain ⟨t, _, s', hs'⟩ := mapSeq_mem _ h
    rw [hs']
    right; left; rfl
  · simp only [genG1] at h
    obtain ⟨u, _, s', hs'⟩ := mapSeq_mem _ h
    rw [hs']
    left; rfl
  · simp only [genP] at h
    obtain ⟨u, _, s', hs'⟩ := mapSeq_mem _ h
    rw [hs']
    right; right; rfl

/-- C3 witness: the first rule of a concrete run has one of the three
ptypes. -/
theorem c3_witness :
    ((generateFrom demoOracle "admin").casbin_rule.getD 0 dfltRule).ptype = "g1" ∨
    ((generateFrom demoOracle "admin").casbin_rule.getD 0 dfltRule).ptype = "g2" ∨
    ((generateFrom demoOracle "admin").casbin_rule.getD 0 dfltRule).ptype = "p" :=
  c3_ptype_values demoOracle "admin" _
    (getD_zero_mem _ dfltRule (casbin_length_pos demoOracle "admin"))

/-- C5: every generated `secrets` row populates exactly the password
credential form: `password` is a non-null, non-empty string and
`private_key` and `public_key` are both null. -/
theorem c5_secret_credentials (o : Oracle) (a : String) :
    ∀ sec ∈ (generateFrom o a).secrets,
      (∃ p, sec.password = some p ∧ p ≠ "") ∧
        sec.private_key = none ∧ sec.public_key = none := by
  intro sec hsec
  have hsec' : sec ∈ (genSecrets o a).1 := hsec
  simp only [genSecrets] at hsec'
  obtain ⟨i, _, s', hs'⟩ := mapSeq_mem _ hsec'
  rw [hs']
  refine ⟨⟨"pw" ++ toString i, rfl, ?_⟩, rfl, rfl⟩
  intro h
  have h2 := congrArg String.length h
  rw [String.length_append] at h2
  have hpw : ("pw" : String).length = 2 := rfl
  have hem : ("" : String).length = 0 := rfl
  rw [hpw, hem] at h2
  omega

/-- C5 witness: the first secret of a concrete run. -/
theorem c5_witness :
    (∃ p, ((generateFrom demoOracle "admin").secrets.getD 0 dfltSecret).password
        = some p ∧ p ≠ "") ∧
      ((generateFrom demoOracle "admin").secrets.getD 0 dfltSecret).private_key
        = none ∧
      ((generateFrom demoOracle "admin").secrets.getD 0 dfltSecret).public_key
        = none :=
  c5_secret_credentials demoOracle "admin" _
    (getD_zero_mem _ dfltSecret
      (by rw [(by rfl : (generateFrom demoOracle "admin").secrets
          = (genSecrets demoOracle "admin").1), genSecrets_length]; omega))

/-- C6: every generated `targets` row has `port` between 1 and 65535
inclusive (the source draws it from `randint(1024, 65535)`). -/
theorem c6_port_range (o : Oracle) (hv : o.Valid) (a : String) :
    ∀ t ∈ (generateFrom o a).targets, 1 ≤ t.port ∧ t.port ≤ 65535 := by
  intro t ht
  have ht' : t ∈ (genTargets o a).1 := ht
  simp only [genTargets] at ht'
  obtain ⟨i, _, s', hs'⟩ := mapSeq_mem _ ht'
  rw [hs']
  have h1 := hv.randint_ge (s' + 1) 1024 65535 (by omega)
  have h2 := hv.randint_le (s' + 1) 1024 65535 (by omega)
  exact ⟨by simp only [mkTarget]; omega, by simp only [mkTarget]; omega⟩

/-- C6 witness: the first target of a concrete run. -/
theorem c6_witness :
    1 ≤ ((generateFrom demoOracle "admin").targets.getD 0 dfltTarget).port ∧
      ((generateFrom demoOracle "admin").targets.getD 0 dfltTarget).port
        ≤ 65535 :=
  c6_port_range demoOracle demoOracle_valid "admin" _
    (getD_zero_mem _ dfltTarget
      (by rw [(by rfl : (generateFrom demoOracle "admin").targets
          = (genTargets demoOracle "admin").1), genTargets_length]; omega))

/-- Every generated binding row is `mkTS` applied to some target and
secret. -/
theorem genTSS_mem (o : Oracle) (a : String) {ts : TargetSecret}
    (h : ts ∈ genTSS o a) :
    ∃ t sec s', ts = (mkTS o (genUsers o a).1 t sec s').1 := by
  simp only [genTSS] at h
  obtain ⟨block, hb, hts⟩ := List.mem_flatten.mp h
  simp only [genTSBlocks] at hb
  obtain ⟨t, _, s, hs⟩ := mapSeq_mem _ hb
  rw [hs] at hts
  simp only [mkTSblock] at hts
  obtain ⟨sec, _, s', hs'⟩ := mapSeq_mem _ hts
  exact ⟨t, sec, s', hs'⟩

theorem mapSeq_getD_zero (f : β → Nat → α × Nat) (b : β) (bs : List β)
    (s : Nat) (d : α) : ((mapSeq f (b :: bs) s).1).getD 0 d = (f b s).1 := rfl

/-- A timestamp of the shape `now_ts() * 1000 + randint(0, 1000)`: 1000
times an epoch-seconds reading of the clock plus an offset in `0..1000`. -/
def MillisTimestamp (o : Oracle) (n : Nat) : Prop :=
  ∃ j k, k ≤ 1000 ∧ n = o.time j * 1000 + k

/-- C4: every `updated_at` value written by `generate()` into any of the
five tables is `1000 * now_ts() + randint(0, 1000)`: a millisecond epoch
integer with offset in the range 0..1000. -/
theorem c4_timestamps (o : Oracle) (hv : o.Valid) (a : String) :
    (∀ u ∈ (generateFrom o a).users, MillisTimestamp o u.updated_at) ∧
    (∀ t ∈ (generateFrom o a).targets, MillisTimestamp o t.updated_at) ∧
    (∀ sec ∈ (generateFrom o a).secrets, MillisTimestamp o sec.updated_at) ∧
    (∀ b ∈ (generateFrom o a).target_secrets, MillisTimestamp o b.updated_at) ∧
    (∀ r ∈ (generateFrom o a).casbin_rule, MillisTimestamp o r.updated_at) := by
  refine ⟨?_, ?_, ?_, ?_, ?_⟩
  · intro u hu
    have hu' : u ∈ (genUsers o a).1 := hu
    simp only [genUsers] at hu'
    obtain ⟨i, _, s', hs'⟩ := mapSeq_mem _ hu'
    rw [hs']
    exact ⟨s' + 2, o.randint (s' + 3) 0 1000,
      hv.randint_le (s' + 3) 0 1000 (by omega), rfl⟩
  · intro t ht
    have ht' : t ∈ (genTargets o a).1 := ht
    simp only [genTargets] at ht'
    obtain ⟨i, _, s', hs'⟩ := mapSeq_mem _ ht'
    rw [hs']
    exact ⟨s' + 4, o.randint (s' + 5) 0 1000,
      hv.randint_le (s' + 5) 0 1000 (by omega), rfl⟩
  · intro sec hsec
    have hsec' : sec ∈ (genSecrets o a).1 := hsec
    simp only [genSecrets] at hsec'
    obtain ⟨i, _, s', hs'⟩ := mapSeq_mem _ hsec'
    rw [hs']
    exact ⟨s' + 4, o.randint (s' + 5) 0 1000,
      hv.randint_le (s' + 5) 0 1000 (by omega), rfl⟩
  · intro b hb
    have hb' : b ∈ genTSS o a := hb
    obtain ⟨t, sec, s', hs'⟩ := genTSS_mem o a hb'
    rw [hs']
    exact ⟨s' + 3, o.randint (s' + 4) 0 1000,
      hv.randint_le (s' + 4) 0 1000 (by omega), rfl⟩
  · intro r hr
    have hsplit : ∀ blk : List CasbinRule,
        (∀ x ∈ blk, ∃ g t s', x = (mkG2 o (genUsers o a).1 g t s').1) →
        r ∈ blk → MillisTimestamp o r.updated_at := by
      intro blk hblk hrb
      obtain ⟨g, t, s', hs'⟩ := hblk r hrb
      rw [hs']
      exact ⟨s' + 2, o.randint (s' + 3) 0 1000,
        hv.randint_le (s' + 3) 0 1000 (by omega), rfl⟩
    rcases (mem_casbin o a r).mp hr with h | h | h | h | h
    · refine hsplit _ ?_ h
      intro x hx
      simp only [genG2a, g2Block] at hx
      obtain ⟨t, _, s', hs'⟩ := mapSeq_mem _ hx
      exact ⟨"apple", t, s', hs'⟩
    · refine hsplit _ ?_ h
      intro x hx
      simp only [genG2b, g2Block] at hx
      obtain ⟨t, _, s', hs'⟩ := mapSeq_mem _ hx
      exact ⟨"banana", t, s', hs'⟩
    · refine hsplit _ ?_ h
      intro x hx
      simp only [genG2c, g2Block] at hx
      obtain ⟨t, _, s', hs'⟩ := mapSeq_mem _ hx
      exact ⟨"peach", t, s', hs'⟩
    · simp only [genG1] at h
      obtain ⟨u, _, s', hs'⟩ := mapSeq_mem _ h
      rw [hs']
      exact ⟨s' + 2, o.randint (s' + 3) 0 1000,
        hv.randint_le (s' + 3) 0 1000 (by omega), rfl⟩
    · simp only [genP] at h
      obtain ⟨u, _, s', hs'⟩ := mapSeq_mem _ h
      rw [hs']
      exact ⟨s' + 4, o.randint (s' + 5) 0 1000,
        hv.randint_le (s' + 5) 0 1000 (by omega), rfl⟩

/-- C4 witness: the first user's timestamp of a concrete run. -/
theorem c4_witness :
    MillisTimestamp demoOracle
      ((generateFrom demoOracle "admin").users.getD 0 dfltUser).updated_at :=
  (c4_timestamps demoOracle demoOracle_valid "admin").1 _
    (getD_zero_mem _ dfltUser
      (by rw [(by rfl : (generateFrom demoOracle "admin").users
          = (genUsers demoOracle "admin").1), genUsers_length]; omega))

/-- C2: every casbin rule written by `generate()` references only ids of
records generated earlier in the same run: a `g1` rule's `v0` is a
generated user id, a `g2` rule's `v0` is a generated binding id, a `p`
rule's `v0` is a generated user id. -/
theorem c2_referential_integrity (o : Oracle) (hv : o.Valid) (a : String) :
    ∀ r ∈ (generateFrom o a).casbin_rule,
      (r.ptype = "g1" → r.v0 ∈ ((generateFrom o a).users).map (·.id)) ∧
      (r.ptype = "g2" → r.v0 ∈ ((generateFrom o a).target_secrets).map (·.id)) ∧
      (r.ptype = "p" → r.v0 ∈ ((generateFrom o a).users).map (·.id)) := by
  intro r hr
  have h100 := genTSS_length_100 o hv a
  have hg2case : ∀ g s, r ∈ (g2Block o (genUsers o a).1 (genTSS o a) g s).1 →
      (r.ptype = "g1" → r.v0 ∈ ((generateFrom o a).users).map (·.id)) ∧
      (r.ptype = "g2" → r.v0 ∈ ((generateFrom o a).target_secrets).map (·.id)) ∧
      (r.ptype = "p" → r.v0 ∈ ((generateFrom o a).users).map (·.id)) := by
    intro g s h
    obtain ⟨t, ht, s', hs'⟩ := g2Block_mem o hv _ _ g s h100 h
    refine ⟨?_, ?_, ?_⟩
    · intro hp
      rw [hs'] at hp
      simp [mkG2] at hp
    · intro _
      rw [hs']
      exact List.mem_map.mpr ⟨t, ht, rfl⟩
    · intro hp
      rw [hs'] at hp
      simp [mkG2] at hp
  rcases (mem_casbin o a r).mp hr with h | h | h | h | h
  · exact hg2case "apple" _ h
  · exact hg2case "banana" _ h
  · exact hg2case "peach" _ h
  · simp only [genG1] at h
    obtain ⟨u, hu, s', hs'⟩ := mapSeq_mem _ h
    refine ⟨?_, ?_, ?_⟩
    · intro _
      rw [hs']
      exact List.mem_map.mpr ⟨u, hu, rfl⟩
    · intro hp
      rw [hs'] at hp
      simp [mkG1] at hp
    · intro hp
      rw [hs'] at hp
      simp [mkG1] at hp
  · simp only [genP] at h
    obtain ⟨u, hu, s', hs'⟩ := mapSeq_mem _ h
    refine ⟨?_, ?_, ?_⟩
    · intro hp
      rw [hs'] at hp
      simp [mkP] at hp
    · intro hp
      rw [hs'] at hp
      simp [mkP] at hp
    · intro _
      rw [hs']
      exact List.mem_map.mpr ⟨u, hu, rfl⟩

/-- C2 witness: the first `g1` rule of a concrete run points at a generated
user id. -/
theorem c2_witness :
    ((genG1 demoOracle "admin").1.getD 0 dfltRule).ptype = "g1" ∧
      ((genG1 demoOracle "admin").1.getD 0 dfltRule).v0 ∈
        ((generateFrom demoOracle "admin").users).map (·.id) := by
  have hlen : 0 < ((genG1 demoOracle "admin").1).length := by
    simp [genG1, mapSeq_length, genUsers_length]
  have hmem := getD_zero_mem _ dfltRule hlen
  have hc : (genG1 demoOracle "admin").1.getD 0 dfltRule ∈
      (generateFrom demoOracle "admin").casbin_rule :=
    (mem_casbin demoOracle "admin" _).mpr (Or.inr (Or.inr (Or.inr (Or.inl hmem))))
  have hg1 : ((genG1 demoOracle "admin").1.getD 0 dfltRule).ptype = "g1" := rfl
  exact ⟨hg1,
    (c2_referential_integrity demoOracle demoOracle_valid "admin" _ hc).1 hg1⟩

/-- C10: every generated casbin rule is well-formed for its ptype: `g1` and
`g2` rules carry non-empty `v0`, `v1` and empty `v2..v5`; `p` rules carry
non-empty `v0`, `v1`, `v2` and empty `v3..v5`. -/
theorem c10_rule_wellformed (o : Oracle) (hv : o.Valid) (a : String) :
    ∀ r ∈ (generateFrom o a).casbin_rule,
      ((r.ptype = "g1" ∨ r.ptype = "g2") →
        r.v0 ≠ "" ∧ r.v1 ≠ "" ∧ r.v2 = "" ∧ r.v3 = "" ∧ r.v4 = "" ∧ r.v5 = "") ∧
      (r.ptype = "p" →
        r.v0 ≠ "" ∧ r.v1 ≠ "" ∧ r.v2 ≠ "" ∧ r.v3 = "" ∧ r.v4 = "" ∧ r.v5 = "") := by
  intro r hr
  have h100 := genTSS_length_100 o hv a
  have husers_id : ∀ u ∈ (genUsers o a).1, u.id ≠ "" := by
    intro u hu
    simp only [genUsers] at hu
    obtain ⟨i, _, s', hs'⟩ := mapSeq_mem _ hu
    rw [hs']
    exact hv.uuid_ne s'
  have hg2case : ∀ g s, g ≠ "" →
      r ∈ (g2Block o (genUsers o a).1 (genTSS o a) g s).1 →
      ((r.ptype = "g1" ∨ r.ptype = "g2") →
        r.v0 ≠ "" ∧ r.v1 ≠ "" ∧ r.v2 = "" ∧ r.v3 = "" ∧ r.v4 = "" ∧ r.v5 = "") ∧
      (r.ptype = "p" →
        r.v0 ≠ "" ∧ r.v1 ≠ "" ∧ r.v2 ≠ "" ∧ r.v3 = "" ∧ r.v4 = "" ∧
          r.v5 = "") := by
    intro g s hg h
    obtain ⟨t, ht, s', hs'⟩ := g2Block_mem o hv _ _ g s h100 h
    obtain ⟨tt, sec, s'', hs''⟩ := genTSS_mem o a ht
    constructor
    · intro _
      rw [hs']
      refine ⟨?_, hg, rfl, rfl, rfl, rfl⟩
      show t.id ≠ ""
      rw [hs'']
      exact hv.uuid_ne s''
    · intro hp
      rw [hs'] at hp
      simp [mkG2] at hp
  rcases (mem_casbin o a r).mp hr with h | h | h | h | h
  · exact hg2case "apple" _ (by decide) h
  · exact hg2case "banana" _ (by decide) h
  · exact hg2case "peach" _ (by decide) h
  · simp only [genG1] at h
    obtain ⟨u, hu, s', hs'⟩ := mapSeq_mem _ h
    constructor
    · intro _
      rw [hs']
      refine ⟨husers_id u hu, ?_, rfl, rfl, rfl, rfl⟩
      show ("login_group" : String) ≠ ""
      decide
    · intro hp
      rw [hs'] at hp
      simp [mkG1] at hp
  · simp only [genP] at h
    obtain ⟨u, hu, s', hs'⟩ := mapSeq_mem _ h
    constructor
    · intro hp
      rw [hs'] at hp
      simp [mkP] at hp
    · intro _
      rw [hs']
      refine ⟨husers_id u hu, ?_, ?_, rfl, rfl, rfl⟩
      · show choose o (s' + 1) ["apple", "banana", "peach"] "" ≠ ""
        have hm := choose_mem o hv (s' + 1) ["apple", "banana", "peach"] ""
          (by decide)
        simp only [List.mem_cons, List.not_mem_nil, or_false] at hm
        rcases hm with h1 | h1 | h1 <;> rw [h1] <;> decide
      · show choose o (s' + 2) ["exec", "shell"] "" ≠ ""
        have hm := choose_mem o hv (s' + 2) ["exec", "shell"] "" (by decide)
        simp only [List.mem_cons, List.not_mem_nil, or_false] at hm
        rcases hm with h1 | h1 <;> rw [h1] <;> decide

/-- C10 witness: the first `g1` rule of a concrete run is well-formed. -/
theorem c10_witness :
    ((genG1 demoOracle "admin").1.getD 0 dfltRule).v0 ≠ "" ∧
      ((genG1 demoOracle "admin").1.getD 0 dfltRule).v1 ≠ "" ∧
      ((genG1 demoOracle "admin").1.getD 0 dfltRule).v2 = "" ∧
      ((genG1 demoOracle "admin").1.getD 0 dfltRule).v3 = "" ∧
      ((genG1 demoOracle "admin").1.getD 0 dfltRule).v4 = "" ∧
      ((genG1 demoOracle "admin").1.getD 0 dfltRule).v5 = "" := by
  have hlen : 0 < ((genG1 demoOracle "admin").1).length := by
    simp [genG1, mapSeq_length, genUsers_length]
  have hmem := getD_zero_mem _ dfltRule hlen
  have hc : (genG1 demoOracle "admin").1.getD 0 dfltRule ∈
      (generateFrom demoOracle "admin").casbin_rule :=
    (mem_casbin demoOracle "admin" _).mpr (Or.inr (Or.inr (Or.inr (Or.inl hmem))))
  exact (c10_rule_wellformed demoOracle demoOracle_valid "admin" _ hc).1
    (Or.inl rfl)

/-- C8: `generate()` requires a pre-existing `admin` user row: without one
the run fails at the initial lookup with nothing inserted; with one, every
generated user's `updated_by` is the admin row's id. -/
theorem c8_admin_lookup (o : Oracle) :
    (∀ existing : List User, findAdmin existing = none →
      generate existing o = none) ∧
    (∀ (existing : List User) (adminRow : User),
      existing.find? (fun u => u.username == "admin") = some adminRow →
      generate existing o = some (generateFrom o adminRow.id) ∧
      ∀ u ∈ (generateFrom o adminRow.id).users, u.updated_by = adminRow.id) := by
  constructor
  · intro existing h
    simp [generate, h]
  · intro existing adminRow h
    constructor
    · simp [generate, findAdmin, h]
    · intro u hu
      have hu' : u ∈ (genUsers o adminRow.id).1 := hu
      simp only [genUsers] at hu'
      obtain ⟨i, _, s', hs'⟩ := mapSeq_mem _ hu'
      rw [hs']
      rfl

/-- A concrete pre-existing admin row. -/
def demoAdmin : User :=
  { dfltUser with username := "admin", id := "admin-id" }

/-- C8 witness: with no admin row `generate` fails; with one it runs. -/
theorem c8_witness :
    generate [] demoOracle = none ∧
      generate [demoAdmin] demoOracle
        = some (generateFrom demoOracle demoAdmin.id) :=
  ⟨(c8_admin_lookup demoOracle).1 [] rfl,
    ((c8_admin_lookup demoOracle).2 [demoAdmin] demoAdmin rfl).1⟩

/-- The triple identifying a grouping rule: `(ptype, v0, v1)`. -/
def ruleKey (r : CasbinRule) : String × String × String :=
  (r.ptype, r.v0, r.v1)

theorem g2Block_shape (o : Oracle) (users : List User)
    (tss : List TargetSecret) (g : String) (s : Nat) {r : CasbinRule}
    (hr : r ∈ (g2Block o users tss g s).1) : r.ptype = "g2" ∧ r.v1 = g := by
  simp only [g2Block] at hr
  obtain ⟨t, _, s', hs'⟩ := mapSeq_mem _ hr
  rw [hs']
  exact ⟨rfl, rfl⟩

theorem genG2a_shape (o : Oracle) (a : String) {r : CasbinRule}
    (hr : r ∈ (genG2a o a).1) : r.ptype = "g2" ∧ r.v1 = "apple" := by
  simp only [genG2a] at hr
  exact g2Block_shape o _ _ _ _ hr

theorem genG2b_shape (o : Oracle) (a : String) {r : CasbinRule}
    (hr : r ∈ (genG2b o a).1) : r.ptype = "g2" ∧ r.v1 = "banana" := by
  simp only [genG2b] at hr
  exact g2Block_shape o _ _ _ _ hr

theorem genG2c_shape (o : Oracle) (a : String) {r : CasbinRule}
    (hr : r ∈ (genG2c o a).1) : r.ptype = "g2" ∧ r.v1 = "peach" := by
  simp only [genG2c] at hr
  exact g2Block_shape o _ _ _ _ hr

theorem genG1_shape (o : Oracle) (a : String) {r : CasbinRule}
    (hr : r ∈ (genG1 o a).1) : r.ptype = "g1" ∧ r.v1 = "login_group" := by
  simp only [genG1] at hr
  obtain ⟨u, _, s', hs'⟩ := mapSeq_mem _ hr
  rw [hs']
  exact ⟨rfl, rfl⟩

theorem genP_shape (o : Oracle) (a : String) {r : CasbinRule}
    (hr : r ∈ (genP o a).1) : r.ptype = "p" := by
  simp only [genP] at hr
  obtain ⟨u, _, s', hs'⟩ := mapSeq_mem _ hr
  rw [hs']
  rfl

/-- The 100 rules of one `g2` block have pairwise distinct keys: the block
samples a duplicate-free table at distinct positions. -/
theorem g2Block_ruleKey_nodup (o : Oracle) (hv : o.Valid) (users : List User)
    (tss : List TargetSecret) (g : String) (s : Nat) (h100 : 100 ≤ tss.length)
    (hnd : (tss.map (·.id)).Nodup) :
    (((g2Block o users tss g s).1).map ruleKey).Nodup := by
  have hmap := mapSeq_map_key (mkG2 o users g) ruleKey
    (fun t => ("g2", t.id, g)) (fun t s' => rfl)
    ((o.sampleIdx s tss.length 100).map fun j => tss.getD j dfltTS) (s + 1)
  simp only [g2Block]
  rw [hmap, List.map_map]
  have hcomp : ((fun t : TargetSecret => (("g2" : String), t.id, g)) ∘
      fun j => tss.getD j dfltTS)
      = (fun x : String => (("g2" : String), x, g)) ∘
        fun j => (tss.getD j dfltTS).id := rfl
  rw [hcomp, ← List.map_map]
  refine List.Nodup.map ?_ ?_
  · intro x y hxy
    simpa using hxy
  · exact sampled_ids_nodup _ tss TargetSecret.id dfltTS hnd
      (hv.sample_nodup s tss.length 100 h100)
      (hv.sample_lt s tss.length 100 h100)

/-- The five `g1` rules have pairwise distinct keys (one per user id). -/
theorem genG1_ruleKey_nodup (o : Oracle) (hv : o.Valid) (a : String) :
    (((genG1 o a).1).map ruleKey).Nodup := by
  have hmap := mapSeq_map_key (mkG1 o (genUsers o a).1) ruleKey
    (fun u => ("g1", u.id, "login_group")) (fun u s' => rfl)
    ((genUsers o a).1) ((genG2c o a).2)
  simp only [genG1]
  rw [hmap]
  have hcomp : (fun u : User => (("g1" : String), u.id, ("login_group" : String)))
      = (fun x : String => (("g1" : String), x, ("login_group" : String))) ∘
        User.id := rfl
  rw [hcomp, ← List.map_map]
  refine List.Nodup.map ?_ (genUsers_ids_nodup o hv a)
  intro x y hxy
  simpa using hxy

/-- Two rule lists with distinct constant `v1` values have disjoint keys. -/
theorem ruleKey_disjoint_of_v1 (l1 l2 : List CasbinRule) (w1 w2 : String)
    (h1 : ∀ r ∈ l1, r.v1 = w1) (h2 : ∀ r ∈ l2, r.v1 = w2) (hne : w1 ≠ w2) :
    List.Disjoint (l1.map ruleKey) (l2.map ruleKey) := by
  intro x hx hx'
  obtain ⟨r, hr, hrk⟩ := List.mem_map.mp hx
  obtain ⟨r', hr', hrk'⟩ := List.mem_map.mp hx'
  apply hne
  calc w1 = r.v1 := (h1 r hr).symm
    _ = x.2.2 := by rw [← hrk]; rfl
    _ = r'.v1 := by rw [← hrk']; rfl
    _ = w2 := h2 r' hr'

/-- Two rule lists with distinct constant `ptype` values have disjoint
keys. -/
theorem ruleKey_disjoint_of_ptype (l1 l2 : List CasbinRule) (w1 w2 : String)
    (h1 : ∀ r ∈ l1, r.ptype = w1) (h2 : ∀ r ∈ l2, r.ptype = w2)
    (hne : w1 ≠ w2) :
    List.Disjoint (l1.map ruleKey) (l2.map ruleKey) := by
  intro x hx hx'
  obtain ⟨r, hr, hrk⟩ := List.mem_map.mp hx
  obtain ⟨r', hr', hrk'⟩ := List.mem_map.mp hx'
  apply hne
  calc w1 = r.ptype := (h1 r hr).symm
    _ = x.1 := by rw [← hrk]; rfl
    _ = r'.ptype := by rw [← hrk']; rfl
    _ = w2 := h2 r' hr'

/-- C9: among the casbin rules generated in one run, no two grouping rules
(`g1` or `g2`) share the same `(ptype, v0, v1)` triple, and the `g1` rules
are exactly one per generated user. -/
theorem c9_grouping_rules_unique (o : Oracle) (hv : o.Valid) (a : String) :
    ((((generateFrom o a).casbin_rule).filter
        fun r => r.ptype == "g1" || r.ptype == "g2").map ruleKey).Nodup ∧
    (((generateFrom o a).casbin_rule).filter
        fun r => r.ptype == "g1").map (·.v0)
      = ((generateFrom o a).users).map (·.id) := by
  have h100 := genTSS_length_100 o hv a
  have hndtss := genTSS_ids_nodup o hv a
  have hcas : (generateFrom o a).casbin_rule
      = (genG2a o a).1 ++ (genG2b o a).1 ++ (genG2c o a).1 ++ (genG1 o a).1 ++
        (genP o a).1 := rfl
  have hndA : (((genG2a o a).1).map ruleKey).Nodup := by
    simp only [genG2a]
    exact g2Block_ruleKey_nodup o hv _ _ _ _ h100 hndtss
  have hndB : (((genG2b o a).1).map ruleKey).Nodup := by
    simp only [genG2b]
    exact g2Block_ruleKey_nodup o hv _ _ _ _ h100 hndtss
  have hndC : (((genG2c o a).1).map ruleKey).Nodup := by
    simp only [genG2c]
    exact g2Block_ruleKey_nodup o hv _ _ _ _ h100 hndtss
  have hndG := genG1_ruleKey_nodup o hv a
  have dAB := ruleKey_disjoint_of_v1 (genG2a o a).1 (genG2b o a).1
    "apple" "banana" (fun r hr => (genG2a_shape o a hr).2)
    (fun r hr => (genG2b_shape o a hr).2) (by decide)
  have dAC := ruleKey_disjoint_of_v1 (genG2a o a).1 (genG2c o a).1
    "apple" "peach" (fun r hr => (genG2a_shape o a hr).2)
    (fun r hr => (genG2c_shape o a hr).2) (by decide)
  have dBC := ruleKey_disjoint_of_v1 (genG2b o a).1 (genG2c o a).1
    "banana" "peach" (fun r hr => (genG2b_shape o a hr).2)
    (fun r hr => (genG2c_shape o a hr).2) (by decide)
  have dAG := ruleKey_disjoint_of_ptype (genG2a o a).1 (genG1 o a).1
    "g2" "g1" (fun r hr => (genG2a_shape o a hr).1)
    (fun r hr => (genG1_shape o a hr).1) (by decide)
  have dBG := ruleKey_disjoint_of_ptype (genG2b o a).1 (genG1 o a).1
    "g2" "g1" (fun r hr => (genG2b_shape o a hr).1)
    (fun r hr => (genG1_shape o a hr).1) (by decide)
  have dCG := ruleKey_disjoint_of_ptype (genG2c o a).1 (genG1 o a).1
    "g2" "g1" (fun r hr => (genG2c_shape o a hr).1)
    (fun r hr => (genG1_shape o a hr).1) (by decide)
  have hfA : (genG2a o a).1.filter
      (fun r => r.ptype == "g1" || r.ptype == "g2") = (genG2a o a).1 :=
    List.filter_eq_self.mpr fun r hr => by
      rw [(genG2a_shape o a hr).1]; decide
  have hfB : (genG2b o a).1.filter
      (fun r => r.ptype == "g1" || r.ptype == "g2") = (genG2b o a).1 :=
    List.filter_eq_self.mpr fun r hr => by
      rw [(genG2b_shape o a hr).1]; decide
  have hfC : (genG2c o a).1.filter
      (fun r => r.ptype == "g1" || r.ptype == "g2") = (genG2c o a).1 :=
    List.filter_eq_self.mpr fun r hr => by
      rw [(genG2c_shape o a hr).1]; decide
  have hfG : (genG1 o a).1.filter
      (fun r => r.ptype == "g1" || r.ptype == "g2") = (genG1 o a).1 :=
    List.filter_eq_self.mpr fun r hr => by
      rw [(genG1_shape o a hr).1]; decide
  have hfP : (genP o a).1.filter
      (fun r => r.ptype == "g1" || r.ptype == "g2") = [] :=
    List.filter_eq_nil_iff.mpr fun r hr => by
      rw [genP_shape o a hr]; decide
  constructor
  · rw [hcas]
    simp only [List.filter_append]
    rw [hfA, hfB, hfC, hfG, hfP, List.append_nil]
    simp only [List.map_append]
    refine List.Nodup.append ?_ hndG ?_
    · refine List.Nodup.append ?_ hndC ?_
      · exact List.Nodup.append hndA hndB dAB
      · simp only [List.disjoint_append_left]
        exact ⟨dAC, dBC⟩
    · simp only [List.disjoint_append_left]
      exact ⟨⟨dAG, dBG⟩, dCG⟩
  · have hfA1 : (genG2a o a).1.filter (fun r => r.ptype == "g1") = [] :=
      List.filter_eq_nil_iff.mpr fun r hr => by
        rw [(genG2a_shape o a hr).1]; decide
    have hfB1 : (genG2b o a).1.filter (fun r => r.ptype == "g1") = [] :=
      List.filter_eq_nil_iff.mpr fun r hr => by
        rw [(genG2b_shape o a hr).1]; decide
    have hfC1 : (genG2c o a).1.filter (fun r => r.ptype == "g1") = [] :=
      List.filter_eq_nil_iff.mpr fun r hr => by
        rw [(genG2c_shape o a hr).1]; decide
    have hfG1 : (genG1 o a).1.filter (fun r => r.ptype == "g1") = (genG1 o a).1 :=
      List.filter_eq_self.mpr fun r hr => by
        rw [(genG1_shape o a hr).1]; decide
    have hfP1 : (genP o a).1.filter (fun r => r.ptype == "g1") = [] :=
      List.filter_eq_nil_iff.mpr fun r hr => by
        rw [genP_shape o a hr]; decide
    rw [hcas]
    simp only [List.filter_append]
    rw [hfA1, hfB1, hfC1, hfG1, hfP1, List.append_nil, List.nil_append,
      List.nil_append, List.nil_append]
    show ((genG1 o a).1).map (·.v0) = ((genUsers o a).1).map (·.id)
    simp only [genG1]
    exact mapSeq_map_key (mkG1 o (genUsers o a).1) _ User.id
      (fun u s' => rfl) ((genUsers o a).1) ((genG2c o a).2)

/-- C9 witness: a concrete run's `g1` rules enumerate its user ids. -/
theorem c9_witness :
    (((generateFrom demoOracle "admin").casbin_rule).filter
        fun r => r.ptype == "g1").map (·.v0)
      = ((generateFrom demoOracle "admin").users).map (·.id) :=
  (c9_grouping_rules_unique demoOracle demoOracle_valid "admin").2

/-! ### The Group Resolver terminates -/

theorem newGroups_nodup (rules : List CasbinRule) (pt : String)
    (frontier visited : List String) :
    (newGroups rules pt frontier visited).Nodup :=
  List.nodup_dedup _

theorem newGroups_not_visited (rules : List CasbinRule) (pt : String)
    (frontier visited : List String) {x : String}
    (hx : x ∈ newGroups rules pt frontier visited) : x ∉ visited := by
  simp only [newGroups, List.mem_dedup, List.mem_filter] at hx
  simpa using hx.2

theorem newGroups_subset_v1 (rules : List CasbinRule) (pt : String)
    (frontier visited : List String) {x : String}
    (hx : x ∈ newGroups rules pt frontier visited) :
    x ∈ rules.map (·.v1) := by
  simp only [newGroups, List.mem_dedup, List.mem_filter] at hx
  have := hx.1
  simp only [directGroups, List.mem_map] at this
  obtain ⟨r, hr, hv⟩ := this
  exact List.mem_map.mpr ⟨r, List.mem_of_mem_filter hr, hv⟩

/-- When every `v1` value is already visited, no new group can appear. -/
theorem newGroups_eq_nil (rules : List CasbinRule) (pt : String)
    (frontier visited : List String)
    (hall : ∀ x ∈ rules.map (·.v1), x ∈ visited) :
    newGroups rules pt frontier visited = [] := by
  rcases h : newGroups rules pt frontier visited with _ | ⟨x, tl⟩
  · rfl
  · exfalso
    have hx : x ∈ newGroups rules pt frontier visited := by
      rw [h]
      exact List.mem_cons_self x tl
    exact newGroups_not_visited rules pt frontier visited hx
      (hall x (newGroups_subset_v1 rules pt frontier visited hx))

/-- A duplicate-free subset of the `v1` values at least as long as the rule
list must contain every `v1` value. -/
theorem visited_saturated (rules : List CasbinRule) (visited : List String)
    (hnd : visited.Nodup) (hsub : ∀ x ∈ visited, x ∈ rules.map (·.v1))
    (hlen : rules.length ≤ visited.length) :
    ∀ x ∈ rules.map (·.v1), x ∈ visited := by
  have hsubf : visited.toFinset ⊆ (rules.map (·.v1)).toFinset := by
    intro x hx
    rw [List.mem_toFinset] at hx ⊢
    exact hsub x hx
  have hcardv : visited.toFinset.card = visited.length :=
    List.toFinset_card_of_nodup hnd
  have hcardl : ((rules.map (·.v1)).toFinset).card ≤ (rules.map (·.v1)).length :=
    List.toFinset_card_le _
  have heq : visited.toFinset = (rules.map (·.v1)).toFinset := by
    refine Finset.eq_of_subset_of_card_le hsubf ?_
    rw [hcardv]
    simpa using le_trans hcardl (by simpa using hlen)
  intro x hx
  have : x ∈ (rules.map (·.v1)).toFinset := List.mem_toFinset.mpr hx
  rw [← heq, List.mem_toFinset] at this
  exact this

/-- The fuel-indexed resolver is stable: once the fuel covers the number of
rules, adding fuel never changes the result — the resolver has reached its
fixed point (termination of `ResolveGroups`, cycles included). -/
theorem resolveAux_stable (rules : List CasbinRule) (pt : String) :
    ∀ (fuel fuel' : Nat) (frontier visited : List String),
      visited.Nodup → (∀ x ∈ visited, x ∈ rules.map (·.v1)) →
      rules.length ≤ visited.length + fuel → fuel ≤ fuel' →
      resolveAux rules pt fuel' frontier visited
        = resolveAux rules pt fuel frontier visited := by
  intro fuel
  induction fuel with
  | zero =>
    intro fuel' frontier visited hnd hsub hlen _
    have hall := visited_saturated rules visited hnd hsub (by omega)
    cases fuel' with
    | zero => rfl
    | succ k =>
      show resolveAux rules pt (k + 1) frontier visited = visited
      simp only [resolveAux]
      rw [if_pos (newGroups_eq_nil rules pt frontier visited hall)]
  | succ k ih =>
    intro fuel' frontier visited hnd hsub hlen hle
    cases fuel' with
    | zero => omega
    | succ k' =>
      have hk : k ≤ k' := by omega
      simp only [resolveAux]
      by_cases hemp : newGroups rules pt frontier visited = []
      · rw [if_pos hemp, if_pos hemp]
      · rw [if_neg hemp, if_neg hemp]
        have hnw := newGroups_nodup rules pt frontier visited
        refine ih k' _ _ ?_ ?_ ?_ hk
        · refine hnd.append hnw ?_
          intro x hx hx'
          exact newGroups_not_visited rules pt frontier visited hx' hx
        · intro x hx
          rcases List.mem_append.mp hx with h | h
          · exact hsub x h
          · exact newGroups_subset_v1 rules pt frontier visited h
        · have hpos : 0 < (newGroups rules pt frontier visited).length :=
            List.length_pos.mpr hemp
          rw [List.length_append]
          omega

/-- A `g1` grouping rule `g1(x, y)`, as the generator would write it. -/
def g1Rule (x y : String) : CasbinRule :=
  { id := "", ptype := "g1", v0 := x, v1 := y, v2 := "", v3 := "", v4 := "",
    v5 := "", updated_by := "", updated_at := 0 }

/-- A rule set containing the cyclic pair plus one further rule out of the
cycle. -/
def cycRules : List CasbinRule :=
  [g1Rule "groupX" "groupY", g1Rule "groupY" "groupX", g1Rule "groupY" "groupZ"]

/-- C7 counterexample: a rule set *containing* the cyclic pair may resolve
to strictly more than the pair: with the extra rule `g1(groupY, groupZ)` the
result also contains `groupZ`, so it is not the set \x7bgroupX, groupY\x7d. -/
theorem c7_counterexample :
    (ResolveGroups cycRules "g1" "groupX").toFinset
      ≠ ({"groupX", "groupY"} : Finset String) := by
  decide

/-- C7 (amended): `ResolveGroups` terminates on every rule set — beyond
`rules.length` rounds the fuel-indexed iteration is already at its fixed
point — and on the rule set consisting exactly of the mutually cyclic pair
`g1(groupX, groupY)`, `g1(groupY, groupX)` the result is exactly the finite
set \x7bgroupX, groupY\x7d. -/
theorem c7_cycle_safety :
    (∀ (rules : List CasbinRule) (pt s : String) (fuel : Nat),
      rules.length ≤ fuel →
      resolveAux rules pt fuel [s] [] = ResolveGroups rules pt s) ∧
    (∀ X Y : String, X ≠ Y →
      (ResolveGroups [g1Rule X Y, g1Rule Y X] "g1" X).toFinset = {X, Y}) := by
  constructor
  · intro rules pt s fuel hfuel
    exact resolveAux_stable rules pt rules.length fuel [s] [] List.nodup_nil
      (by intro x hx; simp at hx) (by omega) hfuel
  · intro X Y hne
    show (resolveAux [g1Rule X Y, g1Rule Y X] "g1" 2 [X] []).toFinset = {X, Y}
    have h1 : newGroups [g1Rule X Y, g1Rule Y X] "g1" [X] [] = [Y] := by
      simp [newGroups, directGroups, g1Rule, List.filter, hne, Ne.symm hne]
    have h2 : newGroups [g1Rule X Y, g1Rule Y X] "g1" [Y] [Y] = [X] := by
      simp [newGroups, directGroups, g1Rule, List.filter, hne, Ne.symm hne]
    simp only [resolveAux, h1, List.nil_append, h2]
    rw [if_neg (by simp : ¬([Y] : List String) = []),
      if_neg (by simp : ¬([X] : List String) = [])]
    show ([Y, X] : List String).toFinset = {X, Y}
    simp [Finset.pair_comm]

/-- C7 witness: on the concrete cyclic pair, extra fuel changes nothing and
the result is exactly the two group names. -/
theorem c7_witness :
    (resolveAux [g1Rule "groupX" "groupY", g1Rule "groupY" "groupX"] "g1" 50
        ["groupX"] []
      = ResolveGroups [g1Rule "groupX" "groupY", g1Rule "groupY" "groupX"]
          "g1" "groupX") ∧
    (ResolveGroups [g1Rule "groupX" "groupY", g1Rule "groupY" "groupX"] "g1"
        "groupX").toFinset = {"groupX", "groupY"} :=
  ⟨c7_cycle_safety.1 _ "g1" "groupX" 50 (by decide),
    c7_cycle_safety.2 "groupX" "groupY" (by decide)⟩

/-- C1: whenever the binding, its target and its secret resolve and any of
the three is inactive, `Authorize` denies with reason "inactive-resource",
whatever the rule set — group and policy evaluation is never consulted. -/
theorem c1_fail_closed (st : Store) (userID bindingID action : String)
    {b : TargetSecret} {t : Target} {sec : Secret}
    (hb : st.getTargetSecret bindingID = some b)
    (ht : st.getTarget b.target_id = some t)
    (hsec : st.getSecret b.secret_id = some sec)
    (hinactive : b.is_active = 0 ∨ t.is_active = 0 ∨ sec.is_active = 0) :
    Authorize st userID bindingID action = .deny "inactive-resource" := by
  simp only [Authorize, hb, ht, hsec]
  have hcond : ¬(b.is_active ≠ 0 ∧ t.is_active ≠ 0 ∧ sec.is_active ≠ 0) := by
    rcases hinactive with h | h | h <;> simp [h]
  rw [if_neg hcond]

/-- An inactive binding over an active target and secret. -/
def demoBinding : TargetSecret :=
  { id := "b1", target_id := "t1", secret_id := "s1", is_active := 0,
    updated_by := "", updated_at := 0 }

/-- An active target for the C1 witness store. -/
def demoTarget : Target :=
  { dfltTarget with id := "t1", is_active := 1 }

/-- An active secret for the C1 witness store. -/
def demoSecret : Secret :=
  { dfltSecret with id := "s1", is_active := 1 }

/-- A permission rule that would match the C1 witness request. -/
def demoPRule : CasbinRule :=
  { id := "r1", ptype := "p", v0 := "u1", v1 := "apple", v2 := "exec",
    v3 := "", v4 := "", v5 := "", updated_by := "", updated_at := 0 }

/-- A store whose only binding is inactive, though a matching permission
rule exists. -/
def demoStore : Store :=
  { users := [], targets := [demoTarget], secrets := [demoSecret],
    target_secrets := [demoBinding],
    rules := [g1Rule "u1" "login_group", demoPRule] }

/-- C1 witness: the request is denied as "inactive-resource" even though a
matching permission rule is present. -/
theorem c1_witness :
    Authorize demoStore "u1" "b1" "exec" = .deny "inactive-resource" :=
  c1_fail_closed demoStore "u1" "b1" "exec" rfl rfl rfl (Or.inl rfl)

end Rustion
